import Mathlib

/-!
Shallow embedding of `src/tx/contracttx.cpp` (WaykiChain contract deploy /
invoke transaction state machines) together with the collaborator
interfaces it uses.  Pure functions of the source become Lean functions;
the stateful validation / execution paths become explicit state passing
over a cache-wrapper record, instrumented with an event trace so that the
ordering of balance operations, persistence calls and the engine
invocation can be reasoned about.  Collaborators whose code is not part
of `src/` (account/contract DB caches, check macros, the Lua VM engine,
crypto hashes) are modelled from the specification and are marked
`Modelled from the spec:` in their doc comments.
-/

namespace ContractTx

/-- Key identifier of an account (a 160-bit hash in the source).
Modelled from the spec: the canonical, stable identifier for an account;
an all-zero value is the empty/null key id. -/
structure CKeyID where
  val : Nat
deriving DecidableEq, Repr

/-- Empty test of a key id (`CKeyID::IsEmpty`). -/
def CKeyID.IsEmpty (k : CKeyID) : Bool := k.val == 0

/-- Null test of a key id (`CKeyID::IsNull`, used at line 322 of the source);
identical to emptiness. -/
def CKeyID.IsNull (k : CKeyID) : Bool := k.IsEmpty

/-- Registration identifier, minted from a (block height, in-block index)
pair.  Modelled from the spec: a compact, immutable alias for an account or
contract, minted once from a (height, index) pair. -/
structure CRegID where
  height : Nat
  index : Nat
deriving DecidableEq, Repr

/-- Emptiness of a regid: the all-zero regid is the unassigned marker.
Modelled from the spec: an optional registration identifier, assigned once. -/
def CRegID.IsEmpty (r : CRegID) : Bool := r.height == 0 && r.index == 0

/-- Raw bytes of a regid (`CRegID::GetRegIdRaw`).  Modelled from the spec:
the fixed-width serialization of the (height, index) pair; injectivity of
the pair encoding is what the spec's collision-freeness rests on. -/
def CRegID.GetRegIdRaw (r : CRegID) : List Nat := [r.height, r.index]

/-- Public key.  Modelled from the spec: sender identities may be raw
public keys; only validity and the derived key id matter here. -/
structure CPubKey where
  val : Nat
deriving DecidableEq, Repr

/-- Curve-point validity of a public key (`CPubKey::IsFullyValid`).
Modelled from the spec: an abstract validity predicate with both outcomes
realizable; the zero key is taken as the invalid one. -/
def CPubKey.IsFullyValid (p : CPubKey) : Bool := p.val != 0

/-- Key id derived from a public key (`CPubKey::GetKeyId`).  Modelled from
the spec: the key identifier is derived deterministically from the owner
public key sidestepping the ledger. -/
def CPubKey.GetKeyId (p : CPubKey) : CKeyID := ⟨p.val⟩

/-- Injective encoding of a list of naturals into a natural, used to model
one-way hashes over raw byte strings. -/
def listEncode : List Nat → Nat
  | [] => 0
  | a :: t => Nat.pair a (listEncode t) + 1

/-- Hash160 over raw bytes (`Hash160` from crypto/hash.h).  Modelled from
the spec: a one-way hash of the regid's raw bytes, collision-free across
chain history per the spec's data model, hence modelled as an injective
encoding. -/
def Hash160 (raw : List Nat) : CKeyID := ⟨listEncode raw⟩

/-- Polymorphic user identity (`CUserID`): registration id, public key,
address-derived key id, or null.  Modelled from the spec: a tagged variant
with explicit discriminant. -/
inductive CUserID where
  | regId (r : CRegID)
  | pubKey (p : CPubKey)
  | keyId (k : CKeyID)
  | nullId
deriving DecidableEq, Repr

/-- Discriminant test used by the check macros: is this uid a regid? -/
def CUserID.isRegId : CUserID → Bool
  | .regId _ => true
  | _ => false

/-- Discriminant test used by the check macros: is this uid a public key? -/
def CUserID.isPubKey : CUserID → Bool
  | .pubKey _ => true
  | _ => false

/-- Projection `appUid.get<CRegID>()` of the source.  Modelled from the
spec: the variant projection; on a non-regid uid the C++ variant get throws,
which never happens on the pipeline paths, so the all-zero regid stands in. -/
def CUserID.getRegIdValue : CUserID → CRegID
  | .regId r => r
  | _ => ⟨0, 0⟩

/-- Account record (`CAccount`): key id, optional regid (empty = absent),
nickname id (0 = absent), owner public key, and the free WICC balance.
Modelled from the spec: the AccountRecord of the data model, restricted to
the fields the contract transactions touch. -/
structure CAccount where
  keyid : CKeyID
  regid : CRegID
  nickid : Nat
  owner_pubkey : Option CPubKey
  free_bcoins : Nat
deriving DecidableEq, Repr

/-- Registered test (`CAccount::HaveOwnerPubKey`). -/
def CAccount.HaveOwnerPubKey (a : CAccount) : Bool := a.owner_pubkey.isSome

/-- Balance operation kinds used by the contract transactions. -/
inductive BalanceOpType where
  | SUB_FREE
  | ADD_FREE
deriving DecidableEq, Repr

/-- Balance operation on the free WICC balance (`CAccount::OperateBalance`).
Modelled from the spec: debit fails on insufficient funds (balances stay
non-negative at every commit point); credit adds. -/
def CAccount.OperateBalance (a : CAccount) (op : BalanceOpType) (value : Nat) :
    Option CAccount :=
  match op with
  | .SUB_FREE =>
      if a.free_bcoins < value then none
      else some { a with free_bcoins := a.free_bcoins - value }
  | .ADD_FREE => some { a with free_bcoins := a.free_bcoins + value }

/-- Association-list update helper: replace the binding of `k` (or append). -/
def setAssoc {α β : Type} [DecidableEq α] (k : α) (v : β) :
    List (α × β) → List (α × β)
  | [] => [(k, v)]
  | (k0, v0) :: t => if k0 = k then (k, v) :: t else (k0, v0) :: setAssoc k v t

/-- Association-list lookup helper. -/
def lookupAssoc {α β : Type} [DecidableEq α] (k : α) :
    List (α × β) → Option β
  | [] => none
  | (k0, v0) :: t => if k0 = k then some v0 else lookupAssoc k t

/-- Ordered-set insertion modelling `set<CKeyID>::insert`: append if
absent. -/
def insertKey (k : CKeyID) (s : List CKeyID) : List CKeyID :=
  if k ∈ s then s else s ++ [k]

/-- The modulus of 64-bit unsigned machine arithmetic. -/
def UINT64_MOD : Nat := 2 ^ 64

/-- Account DB cache (`CAccountDBCache`).  Modelled from the spec: a
transactional layered read/write interface over account records; accounts
are keyed by key id and a separate index maps registration ids to key ids. -/
structure CAccountDBCache where
  accounts : List (CKeyID × CAccount)
  regid2keyid : List (CRegID × CKeyID)
deriving DecidableEq, Repr

/-- Resolution of a regid to a key id (`CRegID::GetKeyId(view)`).  Modelled
from the spec: resolved via the ledger view; an unmapped regid yields the
empty key id. -/
def CRegID.GetKeyId (r : CRegID) (view : CAccountDBCache) : CKeyID :=
  match lookupAssoc r view.regid2keyid with
  | some k => k
  | none => ⟨0⟩

/-- Resolution of a polymorphic uid to a key id
(`CAccountDBCache::GetKeyId`).  Modelled from the spec: regids go through
the ledger index, public keys are hashed directly, key ids pass through;
empty results fail. -/
def CAccountDBCache.GetKeyId (view : CAccountDBCache) (uid : CUserID) :
    Option CKeyID :=
  match uid with
  | .regId r =>
      let k := r.GetKeyId view
      if k.IsEmpty then none else some k
  | .pubKey p => some p.GetKeyId
  | .keyId k => if k.IsEmpty then none else some k
  | .nullId => none

/-- Account fetch by uid (`CAccountDBCache::GetAccount`).  Modelled from
the spec: resolve the uid to a key id through the view, then look the
account up. -/
def CAccountDBCache.GetAccount (view : CAccountDBCache) (uid : CUserID) :
    Option CAccount :=
  match view.GetKeyId uid with
  | some k => lookupAssoc k view.accounts
  | none => none

/-- Regid fetch by uid (`CAccountDBCache::GetRegId`).  Modelled from the
spec: the account's registration id when one has been assigned, failure
otherwise. -/
def CAccountDBCache.GetRegId (view : CAccountDBCache) (uid : CUserID) :
    Option CRegID :=
  match view.GetAccount uid with
  | some a => if a.regid.IsEmpty then none else some a.regid
  | none => none

/-- Contract record (`CContract`): VM kind tag, bytecode, source info and
memo.  Modelled from the spec. -/
structure CContract where
  vmType : Nat
  code : String
  sourceInfo : String
  memo : String
deriving DecidableEq, Repr

/-- VM kind tag for the Lua VM (`LUA_VM`). -/
def LUA_VM : Nat := 0

/-- Contract DB cache (`CContractDBCache`).  Modelled from the spec:
contract records keyed by regid, the per-transaction involved-address
associations keyed by transaction hash, and the chain's fuel-rate
parameter, which the source reads from this view (`GetFuelRate`). -/
structure CContractDBCache where
  contracts : List (CRegID × CContract)
  txRelAccounts : List (Nat × List CKeyID)
  fuelRate : Nat
deriving DecidableEq, Repr

/-- Contract fetch (`CContractDBCache::GetContract`).  Modelled from the
spec: get by contract identifier, failure when absent. -/
def CContractDBCache.GetContract (c : CContractDBCache) (rid : CRegID) :
    Option CContract :=
  lookupAssoc rid c.contracts

/-- Fuel rate read from the contract view (`GetFuelRate(cw.contractCache)`).
Modelled from the spec: a chain parameter read from the contract registry
view. -/
def GetFuelRate (c : CContractDBCache) : Nat := c.fuelRate

/-- Fault-injection switches standing for external persistence failures of
the DB collaborators.  Modelled from the spec: the underlying key-value
persistence engine is an external collaborator whose writes can fail. -/
structure FaultFlags where
  setAccountFail : Bool
  saveAccountFail : Bool
  saveContractFail : Bool
  setTxRelFail : Bool
  saveTxAddressesFail : Bool
deriving DecidableEq, Repr

/-- The all-healthy fault configuration. -/
def FaultFlags.none : FaultFlags := ⟨false, false, false, false, false⟩

/-- Cache wrapper (`CCacheWrapper`): the account view, the contract view,
the transaction-address table written by `SaveTxAddresses`, and the fault
switches of the persistence collaborators. -/
structure CCacheWrapper where
  accountCache : CAccountDBCache
  contractCache : CContractDBCache
  txAddrs : List ((Nat × Nat) × List CUserID)
  faults : FaultFlags
deriving DecidableEq, Repr

/-- Account update by uid (`CAccountDBCache::SetAccount` through the
wrapper).  Modelled from the spec: the normal update path; fails when the
uid does not resolve or the persistence collaborator fails. -/
def CCacheWrapper.SetAccount (cw : CCacheWrapper) (uid : CUserID)
    (a : CAccount) : Option CCacheWrapper :=
  if cw.faults.setAccountFail then none
  else
    match cw.accountCache.GetKeyId uid with
    | some k =>
        some { cw with accountCache :=
          { cw.accountCache with accounts := setAssoc k a cw.accountCache.accounts } }
    | none => none

/-- Account creation (`CAccountDBCache::SaveAccount` through the wrapper).
Modelled from the spec: the distinct create path; stores the account under
its key id and registers its regid in the index. -/
def CCacheWrapper.SaveAccount (cw : CCacheWrapper) (a : CAccount) :
    Option CCacheWrapper :=
  if cw.faults.saveAccountFail then none
  else
    some { cw with accountCache :=
      { accounts := setAssoc a.keyid a cw.accountCache.accounts
        regid2keyid := setAssoc a.regid a.keyid cw.accountCache.regid2keyid } }

/-- Contract persistence (`CContractDBCache::SaveContract` through the
wrapper).  Modelled from the spec: save by contract identifier. -/
def CCacheWrapper.SaveContract (cw : CCacheWrapper) (rid : CRegID)
    (c : CContract) : Option CCacheWrapper :=
  if cw.faults.saveContractFail then none
  else
    some { cw with contractCache :=
      { cw.contractCache with contracts := setAssoc rid c cw.contractCache.contracts } }

/-- Involved-address persistence (`CContractDBCache::SetTxRelAccout`
through the wrapper).  Modelled from the spec: persist the involved-address
set keyed by this transaction's hash. -/
def CCacheWrapper.SetTxRelAccout (cw : CCacheWrapper) (txHash : Nat)
    (keys : List CKeyID) : Option CCacheWrapper :=
  if cw.faults.setTxRelFail then none
  else
    some { cw with contractCache :=
      { cw.contractCache with
        txRelAccounts := setAssoc txHash keys cw.contractCache.txRelAccounts } }

/-- Transaction-address persistence (`SaveTxAddresses` from
persistence/txdb, outside src/).  Modelled from the spec: registers the
given identities as involved in the transaction at (height, index); per the
error-handling design every failure produces a sink entry, so failure is
reported by the caller-visible flag here and the sink entry is emitted at
the call site. -/
def CCacheWrapper.SaveTxAddresses (cw : CCacheWrapper) (height index : Nat)
    (uids : List CUserID) : Option CCacheWrapper :=
  if cw.faults.saveTxAddressesFail then none
  else
    some { cw with txAddrs := setAssoc (height, index) uids cw.txAddrs }

/-- Parse of a 6-byte string as a regid (`CRegID(userIdStr)`).  Modelled
from the spec: the short encoding is treated as a registration identifier;
the exact byte decoding is irrelevant to the claims, an injective fold
stands in. -/
def regIdOfString (s : String) : CRegID :=
  ⟨s.data.foldl (fun a c => a * 256 + c.toNat) 0, s.length⟩

/-- Interpretation of a 34-byte string as an address key id
(`CKeyID(addr)`).  Modelled from the spec: the long encoding is treated as
a direct address, not consulting the ledger; an undecodable address leaves
the key id empty. -/
def keyIdFromAddress (s : String) : CKeyID :=
  ⟨s.data.foldl (fun a c => a * 256 + c.toNat) 0⟩

/-- String-based identifier resolver (static `GetKeyId`, lines 19-37 of
the source): length 6 resolves as a regid via the ledger view, length 34
as a direct address, any other length fails, and an empty resolved key id
fails. -/
def GetKeyId (view : CAccountDBCache) (userIdStr : String) :
    Option CKeyID :=
  if userIdStr.length = 6 then
    let keyId := (regIdOfString userIdStr).GetKeyId view
    if keyId.IsEmpty then none else some keyId
  else if userIdStr.length = 34 then
    let keyId := keyIdFromAddress userIdStr
    if keyId.IsEmpty then none else some keyId
  else
    none

/-- Rejection sink entry accumulated by `CValidationState::DoS`: severity,
rejection code and reason string.  Modelled from the spec: the validation
state reporter records a code/string/severity triple on failure. -/
structure SinkEntry where
  dosLevel : Nat
  rejectCode : Nat
  reason : String
deriving DecidableEq, Repr

/-- Rejection code `REJECT_INVALID`.  Modelled from the spec: distinct
admission-stage code. -/
def REJECT_INVALID : Nat := 16

/-- Rejection code `READ_ACCOUNT_FAIL`.  Modelled from the spec: distinct
execution-stage code. -/
def READ_ACCOUNT_FAIL : Nat := 61

/-- Rejection code `WRITE_ACCOUNT_FAIL`.  Modelled from the spec: distinct
execution-stage code. -/
def WRITE_ACCOUNT_FAIL : Nat := 62

/-- Rejection code `UPDATE_ACCOUNT_FAIL`.  Modelled from the spec: distinct
execution-stage code. -/
def UPDATE_ACCOUNT_FAIL : Nat := 63

/-- Chain parameters consumed by the check macros.  Modelled from the
spec: the general minimum-fee floor, the global minimum relay fee
(`CBaseTx::nMinRelayTxFee`), and the height-dependent feature-fork
version (`GetFeatureForkVersion`). -/
structure ChainParams where
  minTxFee : Nat
  nMinRelayTxFee : Nat
  forkVersion : Nat → Nat

/-- The legacy feature-fork marker `MAJOR_VER_R2`. -/
def MAJOR_VER_R2 : Nat := 2

/-- Feature-fork version at a height (`GetFeatureForkVersion`).  Modelled
from the spec: the active feature-fork version is a function of height. -/
def GetFeatureForkVersion (p : ChainParams) (height : Nat) : Nat :=
  p.forkVersion height

/-- Signature verification (`IMPLEMENT_CHECK_TX_SIGNATURE`).  Modelled
from the spec: verification of the transaction signature against a given
public key, abstracted to a perfect-crypto match between the key the
transaction was signed with and the expected key. -/
def verifyTxSignature (signedBy : CPubKey) (pk : CPubKey) : Bool :=
  signedBy == pk

/-- Lua contract payload (`CLuaContract`): bytecode plus human memo. -/
structure CLuaContract where
  code : String
  memo : String
deriving DecidableEq, Repr

/-- Payload size (`CLuaContract::GetContractSize`).  Modelled from the
spec: the serialized size of code plus memo. -/
def CLuaContract.GetContractSize (c : CLuaContract) : Nat :=
  c.code.length + c.memo.length

/-- Static validity of the payload (`CLuaContract::IsValid`).  Modelled
from the spec: a size/structure well-formedness predicate of the execution
engine — nonempty code within the size bound. -/
def CLuaContract.IsValid (c : CLuaContract) : Bool :=
  c.code.length != 0 && c.GetContractSize ≤ 65536

/-- Contract-deployment transaction (`CContractDeployTx`): common fields
plus the contract payload.  `signedBy` models the signature (the key it
verifies against); `serializedSize` models `GetSerializeSize`. -/
structure CContractDeployTx where
  txUid : CUserID
  llFees : Nat
  nValidHeight : Nat
  contract : CLuaContract
  signedBy : CPubKey
  serializedSize : Nat
  nRunStep : Nat
deriving DecidableEq, Repr

/-- Fuel cost of a deploy transaction (`CContractDeployTx::GetFuel`).
Modelled from the spec: fuel cost scales with the payload size at a
per-size-unit rate, monotonically non-decreasing in the size. -/
def CContractDeployTx.GetFuel (tx : CContractDeployTx) (fuelRate : Nat) :
    Nat :=
  ((tx.contract.GetContractSize + 99) / 100) * fuelRate

/-- The legacy per-KB relay-fee comparison of lines 60-62: the source
computes `double(llFees - llFuel) / (double(nTxSize) / 1000.0)` and
compares it against the minimum relay fee; the comparison is carried out
here in exact rational arithmetic. -/
def feePerKbBelowMin (llFees llFuel nTxSize minRelay : Nat) : Bool :=
  decide (((llFees - llFuel : Nat) : ℚ) / ((nTxSize : ℚ) / 1000) < (minRelay : ℚ))

/-- Admission check of a deploy transaction
(`CContractDeployTx::CheckTx`, lines 42-83): minimum-fee floor, regid-typed
sender, payload validity, fuel affordability, the fork-gated per-KB relay
check, account presence, registration and signature.  The boolean is the
return value; the sink entry is what `state.DoS` recorded on failure. -/
def CContractDeployTx.CheckTx (p : ChainParams) (height : Nat)
    (cw : CCacheWrapper) (tx : CContractDeployTx) :
    Bool × Option SinkEntry :=
  if tx.llFees < p.minTxFee then
    (false, some ⟨100, REJECT_INVALID, "bad-tx-fee-toosmall"⟩)
  else if !tx.txUid.isRegId then
    (false, some ⟨100, REJECT_INVALID, "deploytx-error-txuid-type"⟩)
  else if !tx.contract.IsValid then
    (false, some ⟨100, REJECT_INVALID, "vmscript-invalid"⟩)
  else
    let llFuel := tx.GetFuel (GetFuelRate cw.contractCache)
    if tx.llFees < llFuel then
      (false, some ⟨100, REJECT_INVALID, "fee-too-litter-to-afford-fuel"⟩)
    else if GetFeatureForkVersion p height == MAJOR_VER_R2 &&
        feePerKbBelowMin tx.llFees llFuel tx.serializedSize p.nMinRelayTxFee then
      (false, some ⟨100, REJECT_INVALID, "fee-too-litter-in-fees/Kb"⟩)
    else
      match cw.accountCache.GetAccount tx.txUid with
      | none => (false, some ⟨100, REJECT_INVALID, "bad-getaccount"⟩)
      | some account =>
        if !account.HaveOwnerPubKey then
          (false, some ⟨100, REJECT_INVALID, "bad-account-unregistered"⟩)
        else if !verifyTxSignature tx.signedBy (account.owner_pubkey.getD ⟨0⟩) then
          (false, some ⟨100, REJECT_INVALID, "bad-signature"⟩)
        else
          (true, none)

/-- Trace events emitted by the execution state machines: balance
operations, account/contract persistence, the engine invocation and the
involved-address writes.  Ghost instrumentation used to state ordering
properties; it does not alter the computed state. -/
inductive Event where
  | subFree (who : CKeyID) (amount : Nat)
  | addFree (who : CKeyID) (amount : Nat)
  | setAcct (who : CKeyID) (a : CAccount)
  | saveAcct (a : CAccount)
  | saveContractEv (rid : CRegID) (c : CContract)
  | engineInvoked
  | setTxRel (txHash : Nat) (keys : List CKeyID)
  | saveTxAddrs (height index : Nat) (uids : List CUserID)
deriving DecidableEq, Repr

/-- Result of a deploy `ExecuteTx` run: return value, sink entry, final
cache state, event trace, and the transaction's step counter after the
run. -/
structure DeployExecOut where
  ok : Bool
  sink : Option SinkEntry
  cw : CCacheWrapper
  events : List Event
  nRunStep : Nat
deriving Repr

/-- Execution of a deploy transaction (`CContractDeployTx::ExecuteTx`,
lines 85-125): fetch and debit the sender, persist it via the update path,
mint the contract regid from (height, index), derive its key id by hashing
the raw regid, persist the contract record and the fresh contract account
via the create path, record the code size as the step count, and register
the sender's address. -/
def CContractDeployTx.ExecuteTx (height index : Nat) (cw : CCacheWrapper)
    (tx : CContractDeployTx) : DeployExecOut :=
  match cw.accountCache.GetAccount tx.txUid with
  | none =>
      ⟨false, some ⟨100, UPDATE_ACCOUNT_FAIL, "bad-read-accountdb"⟩, cw, [], tx.nRunStep⟩
  | some account =>
    match account.OperateBalance .SUB_FREE tx.llFees with
    | none =>
        ⟨false, some ⟨100, UPDATE_ACCOUNT_FAIL, "operate-account-failed"⟩, cw, [], tx.nRunStep⟩
    | some account1 =>
      let ev1 := [Event.subFree account.keyid tx.llFees]
      match cw.SetAccount (.keyId account1.keyid) account1 with
      | none =>
          ⟨false, some ⟨100, UPDATE_ACCOUNT_FAIL, "bad-save-accountdb"⟩, cw, ev1, tx.nRunStep⟩
      | some cw1 =>
        let ev2 := ev1 ++ [Event.setAcct account1.keyid account1]
        let contractRegId : CRegID := ⟨height, index⟩
        let keyId := Hash160 contractRegId.GetRegIdRaw
        let contractAccount : CAccount := ⟨keyId, contractRegId, 0, none, 0⟩
        let newContract : CContract := ⟨LUA_VM, tx.contract.code, "", tx.contract.memo⟩
        match cw1.SaveContract contractRegId newContract with
        | none =>
            ⟨false, some ⟨100, UPDATE_ACCOUNT_FAIL, "bad-save-scriptdb"⟩, cw1, ev2, tx.nRunStep⟩
        | some cw2 =>
          let ev3 := ev2 ++ [Event.saveContractEv contractRegId newContract]
          match cw2.SaveAccount contractAccount with
          | none =>
              ⟨false, some ⟨100, UPDATE_ACCOUNT_FAIL, "bad-save-scriptdb"⟩, cw2, ev3, tx.nRunStep⟩
          | some cw3 =>
            let ev4 := ev3 ++ [Event.saveAcct contractAccount]
            let step := tx.contract.GetContractSize
            match cw3.SaveTxAddresses height index [tx.txUid] with
            | none =>
                ⟨false, some ⟨100, UPDATE_ACCOUNT_FAIL, "bad-save-txaddresses"⟩, cw3, ev4, step⟩
            | some cw4 =>
                ⟨true, none, cw4, ev4 ++ [Event.saveTxAddrs height index [tx.txUid]], step⟩

/-- Involved key ids of a deploy transaction
(`CContractDeployTx::GetInvolvedKeyIds`, lines 127-134): the sender's
resolved key id added to the in-out set. -/
def CContractDeployTx.GetInvolvedKeyIds (cw : CCacheWrapper)
    (tx : CContractDeployTx) (keyIds : List CKeyID) :
    Option (List CKeyID) :=
  match cw.accountCache.GetKeyId tx.txUid with
  | none => none
  | some keyId => some (insertKey keyId keyIds)

/-- Contract-invocation transaction (`CContractInvokeTx`): common fields
plus the destination application uid, the transferred value and the call
arguments.  `txHash` models `GetHash()` as an opaque precomputed id. -/
structure CContractInvokeTx where
  txUid : CUserID
  appUid : CUserID
  llFees : Nat
  bcoins : Nat
  arguments : String
  nValidHeight : Nat
  signedBy : CPubKey
  nRunStep : Nat
  txHash : Nat
deriving DecidableEq, Repr

/-- Result of the external contract-execution engine
(`CVmRunEnv::ExecuteContract` plus `GetNewAccount` and
`GetRawAppUserAccount`).  Modelled from the spec: success flag, fuel
consumed, error text, the accounts the engine created or mutated, the
user-id strings of the application sub-accounts it touched, and the cache
state after the engine's own mutations. -/
structure EngineRun where
  success : Bool
  fuelConsumed : Nat
  errMsg : String
  newAccounts : List CAccount
  appUserIds : List String
  cwAfter : CCacheWrapper
deriving Repr

/-- The engine as a deterministic function of the arguments the source
passes it: height, cache state, fuel rate and current step count.
Modelled from the spec: the execution engine is an external collaborator
consumed as a black box. -/
def EngineFun : Type := Nat → CCacheWrapper → Nat → Nat → EngineRun

/-- Outcome of the post-engine account-merge loop of lines 316-332. -/
inductive MergeResult where
  | ok (cw : CCacheWrapper) (vAddress : List CKeyID) (events : List Event)
  | fail (entry : SinkEntry) (cw : CCacheWrapper) (events : List Event)

/-- Post-engine merge of the engine-reported accounts (lines 316-332):
each reported account's key id enters the involved-address set; an absent
account with a null key id is fatal; otherwise the reported account is
persisted via the update path. -/
def mergeEngineAccounts (cw : CCacheWrapper) (vAddress : List CKeyID) :
    List CAccount → MergeResult
  | [] => .ok cw vAddress []
  | item :: rest =>
    let vAddress1 := insertKey item.keyid vAddress
    let known : Bool :=
      match cw.accountCache.GetAccount (.keyId item.keyid) with
      | some _ => true
      | none => !item.keyid.IsNull
    if !known then
      .fail ⟨100, UPDATE_ACCOUNT_FAIL, "bad-read-accountdb"⟩ cw []
    else
      match cw.SetAccount (.keyId item.keyid) item with
      | none => .fail ⟨100, UPDATE_ACCOUNT_FAIL, "bad-write-accountdb"⟩ cw []
      | some cw1 =>
        match mergeEngineAccounts cw1 vAddress1 rest with
        | .ok cw2 v2 evs => .ok cw2 v2 (Event.setAcct item.keyid item :: evs)
        | .fail e cwF evs => .fail e cwF (Event.setAcct item.keyid item :: evs)

/-- Resolution of the application sub-account owner ids reported by the
engine (lines 334-341): each id string is resolved through the string
resolver `GetKeyId`; successful resolutions enter the involved-address
set, failures are skipped. -/
def resolveAppUserIds (view : CAccountDBCache) (vAddress : List CKeyID) :
    List String → List CKeyID
  | [] => vAddress
  | s :: rest =>
    match GetKeyId view s with
    | some k => resolveAppUserIds view (insertKey k vAddress) rest
    | none => resolveAppUserIds view vAddress rest

/-- Result of an invoke `ExecuteTx` run: return value, sink entry, final
cache state and event trace, plus ghost observations — the cache state
handed to the engine, the engine's result, and the cache state right after
the merge loop — used to state ordering and exactness properties. -/
structure InvokeExecOut where
  ok : Bool
  sink : Option SinkEntry
  cw : CCacheWrapper
  events : List Event
  engineCw : Option CCacheWrapper
  engineRun : Option EngineRun
  cwMerged : Option CCacheWrapper

/-- Post-engine tail of `CContractInvokeTx::ExecuteTx` (lines 306-348):
propagate an engine failure verbatim into the rejection reason, merge the
engine's account set, resolve the application sub-account owners through
the string resolver, persist the involved-address set under the
transaction hash (a bare `ERRORMSG` return on failure: no sink entry),
and register sender and destination. -/
def invokePostEngine (height index : Nat) (tx : CContractInvokeTx)
    (cw2 : CCacheWrapper) (er : EngineRun) (ev5 : List Event) :
    InvokeExecOut :=
  if !er.success then
    ⟨false, some ⟨100, UPDATE_ACCOUNT_FAIL, "run-script-error: " ++ er.errMsg⟩,
      er.cwAfter, ev5, some cw2, some er, none⟩
  else
    match mergeEngineAccounts er.cwAfter [] er.newAccounts with
    | .fail entry cwF evs =>
        ⟨false, some entry, cwF, ev5 ++ evs, some cw2, some er, none⟩
    | .ok cwM vA evs =>
      let ev6 := ev5 ++ evs
      let vAddress := resolveAppUserIds cwM.accountCache vA er.appUserIds
      match cwM.SetTxRelAccout tx.txHash vAddress with
      | none =>
          ⟨false, Option.none, cwM, ev6, some cw2, some er, some cwM⟩
      | some cw3 =>
        let ev7 := ev6 ++ [Event.setTxRel tx.txHash vAddress]
        match cw3.SaveTxAddresses height index [tx.txUid, tx.appUid] with
        | none =>
            ⟨false, some ⟨100, UPDATE_ACCOUNT_FAIL, "bad-save-txaddresses"⟩,
              cw3, ev7, some cw2, some er, some cwM⟩
        | some cw4 =>
            ⟨true, none, cw4,
              ev7 ++ [Event.saveTxAddrs height index [tx.txUid, tx.appUid]],
              some cw2, some er, some cwM⟩

/-- Execution of an invoke transaction (`CContractInvokeTx::ExecuteTx`,
lines 245-349): fetch the sender (attaching the raw public key and lazily
minting a regid when needed), debit the 64-bit sum of fee and value,
persist the sender via the create or update path, credit the destination,
persist it, fetch the contract, invoke the engine, then run the
post-engine tail `invokePostEngine`. -/
def CContractInvokeTx.ExecuteTx (height index : Nat) (cw : CCacheWrapper)
    (tx : CContractInvokeTx) (engine : EngineFun) : InvokeExecOut :=
  match cw.accountCache.GetAccount tx.txUid with
  | none =>
      ⟨false, some ⟨100, READ_ACCOUNT_FAIL, "bad-read-accountdb"⟩, cw, [], none, none, none⟩
  | some srcAcct0 =>
    let attach : CAccount × Bool :=
      match tx.txUid with
      | .pubKey pk =>
          let a := { srcAcct0 with owner_pubkey := some pk }
          match cw.accountCache.GetRegId tx.txUid with
          | none => ({ a with regid := ⟨height, index⟩ }, true)
          | some _ => (a, false)
      | _ => (srcAcct0, false)
    let srcAcct1 := attach.1
    let generateRegID := attach.2
    let minusValue := (tx.llFees + tx.bcoins) % UINT64_MOD
    match srcAcct1.OperateBalance .SUB_FREE minusValue with
    | none =>
        ⟨false, some ⟨100, UPDATE_ACCOUNT_FAIL, "operate-minus-account-failed"⟩, cw, [],
          none, none, none⟩
    | some srcAcct2 =>
      let ev1 := [Event.subFree srcAcct1.keyid minusValue]
      let persist : Option CCacheWrapper × Event :=
        if generateRegID then
          (cw.SaveAccount srcAcct2, Event.saveAcct srcAcct2)
        else
          (cw.SetAccount (.keyId srcAcct2.keyid) srcAcct2,
           Event.setAcct srcAcct2.keyid srcAcct2)
      match persist.1 with
      | none =>
          ⟨false, some ⟨100, WRITE_ACCOUNT_FAIL, "bad-write-accountdb"⟩, cw, ev1,
            none, none, none⟩
      | some cw1 =>
        let ev2 := ev1 ++ [persist.2]
        match cw1.accountCache.GetAccount tx.appUid with
        | none =>
            ⟨false, some ⟨100, READ_ACCOUNT_FAIL, "bad-read-accountdb"⟩, cw1, ev2,
              none, none, none⟩
        | some desAcct0 =>
          match desAcct0.OperateBalance .ADD_FREE tx.bcoins with
          | none =>
              ⟨false, some ⟨100, UPDATE_ACCOUNT_FAIL, "operate-add-account-failed"⟩, cw1, ev2,
                none, none, none⟩
          | some desAcct1 =>
            let ev3 := ev2 ++ [Event.addFree desAcct0.keyid tx.bcoins]
            match cw1.SetAccount tx.appUid desAcct1 with
            | none =>
                ⟨false, some ⟨100, UPDATE_ACCOUNT_FAIL, "bad-save-account"⟩, cw1, ev3,
                  none, none, none⟩
            | some cw2 =>
              let ev4 := ev3 ++ [Event.setAcct desAcct0.keyid desAcct1]
              match cw2.contractCache.GetContract tx.appUid.getRegIdValue with
              | none =>
                  ⟨false, some ⟨100, READ_ACCOUNT_FAIL, "bad-read-script"⟩, cw2, ev4,
                    none, none, none⟩
              | some _ =>
                let fuelRate := GetFuelRate cw2.contractCache
                invokePostEngine height index tx cw2
                  (engine height cw2 fuelRate tx.nRunStep)
                  (ev4 ++ [Event.engineInvoked])

/-- Admission check of an invoke transaction
(`CContractInvokeTx::CheckTx`, lines 351-379): minimum-fee floor,
argument well-formedness, sender typed regid-or-pubkey, destination typed
regid, curve validity of a raw public key sender, account presence,
registration, contract presence, and signature against the supplied or
stored owner key. -/
def CContractInvokeTx.CheckTx (p : ChainParams) (height : Nat)
    (cw : CCacheWrapper) (tx : CContractInvokeTx) :
    Bool × Option SinkEntry :=
  if tx.llFees < p.minTxFee then
    (false, some ⟨100, REJECT_INVALID, "bad-tx-fee-toosmall"⟩)
  else if 4096 < tx.arguments.length then
    (false, some ⟨100, REJECT_INVALID, "arguments-size-toolarge"⟩)
  else if !(tx.txUid.isRegId || tx.txUid.isPubKey) then
    (false, some ⟨100, REJECT_INVALID, "txuid-type-error"⟩)
  else if !tx.appUid.isRegId then
    (false, some ⟨100, REJECT_INVALID, "appuid-type-error"⟩)
  else if (match tx.txUid with
           | .pubKey pk => !pk.IsFullyValid
           | _ => false) then
    (false, some ⟨100, REJECT_INVALID, "bad-publickey"⟩)
  else
    match cw.accountCache.GetAccount tx.txUid with
    | none => (false, some ⟨100, REJECT_INVALID, "bad-getaccount"⟩)
    | some srcAccount =>
      if !srcAccount.HaveOwnerPubKey then
        (false, some ⟨100, REJECT_INVALID, "bad-account-unregistered"⟩)
      else
        match cw.contractCache.GetContract tx.appUid.getRegIdValue with
        | none => (false, some ⟨100, REJECT_INVALID, "bad-read-script"⟩)
        | some _ =>
          let pubKey :=
            match tx.txUid with
            | .pubKey pk => pk
            | _ => srcAccount.owner_pubkey.getD ⟨0⟩
          if !verifyTxSignature tx.signedBy pubKey then
            (false, some ⟨100, REJECT_INVALID, "bad-signature"⟩)
          else
            (true, none)

/-- Involved key ids of an invoke transaction
(`CContractInvokeTx::GetInvolvedKeyIds`, lines 161-206): the sender's and
destination's key ids resolved via the ledger view added to the in-out
set; the deep-extraction path of the source is commented out. -/
def CContractInvokeTx.GetInvolvedKeyIds (cw : CCacheWrapper)
    (tx : CContractInvokeTx) (keyIds : List CKeyID) :
    Option (List CKeyID) :=
  match cw.accountCache.GetKeyId tx.txUid with
  | none => none
  | some keyId =>
    let keyIds1 := insertKey keyId keyIds
    match cw.accountCache.GetKeyId tx.appUid with
    | none => none
    | some desKeyId => some (insertKey desKeyId keyIds1)

/-- The per-transaction pipeline of the surrounding system.  Modelled from
the spec: the system first decides admissibility via `CheckTx` and only
then applies effects via `ExecuteTx`; a transaction failing `CheckTx`
never reaches `ExecuteTx` and the state is unchanged. -/
def applyInvokeTx (p : ChainParams) (height index : Nat)
    (cw : CCacheWrapper) (tx : CContractInvokeTx) (engine : EngineFun) :
    CCacheWrapper :=
  if (tx.CheckTx p height cw).1 then
    (tx.ExecuteTx height index cw engine).cw
  else
    cw

/-! ## Concrete fixtures for witnesses and counterexamples -/

/-- Empty account view used by concrete test instances. -/
def emptyAcctView : CAccountDBCache := ⟨[], []⟩

/-- Contract view with fuel rate 100 used by concrete test instances. -/
def rate100Contracts : CContractDBCache := ⟨[], [], 100⟩

/-- Healthy cache wrapper over empty views with fuel rate 100. -/
def cwRate100 : CCacheWrapper := ⟨emptyAcctView, rate100Contracts, [], FaultFlags.none⟩

/-- Chain parameters with no fee floors and fork version 1 everywhere. -/
def paramsVer1 : ChainParams := ⟨0, 0, fun _ => 1⟩

/-- Chain parameters with relay floor 5 and fork version `MAJOR_VER_R2`
everywhere. -/
def paramsVer2 : ChainParams := ⟨0, 5, fun _ => 2⟩

/-- Deploy transaction with a raw-public-key sender and fee below fuel. -/
def pubkeyDeployTx : CContractDeployTx :=
  ⟨.pubKey ⟨5⟩, 0, 0, ⟨"x", ""⟩, ⟨1⟩, 100, 0⟩

/-- Deploy transaction with a regid sender, fee exactly equal to fuel, and
a 1000-byte serialization. -/
def regidDeployTx : CContractDeployTx :=
  ⟨.regId ⟨1, 1⟩, 100, 0, ⟨"x", ""⟩, ⟨1⟩, 1000, 0⟩

/-- A registered sender account with balance 1000. -/
def senderAccount : CAccount := ⟨⟨11⟩, ⟨1, 1⟩, 0, some ⟨7⟩, 1000⟩

/-- The contract's destination account with balance 0. -/
def destAccount : CAccount := ⟨⟨22⟩, ⟨2, 2⟩, 0, none, 0⟩

/-- Ledger view holding the sender and destination accounts. -/
def happyView : CAccountDBCache :=
  ⟨[(⟨11⟩, senderAccount), (⟨22⟩, destAccount)],
   [(⟨1, 1⟩, ⟨11⟩), (⟨2, 2⟩, ⟨22⟩)]⟩

/-- Contract view holding the destination contract under regid (2,2). -/
def happyContracts : CContractDBCache := ⟨[(⟨2, 2⟩, ⟨0, "c", "", ""⟩)], [], 1⟩

/-- Healthy cache wrapper for the invoke happy path. -/
def cwHappy : CCacheWrapper := ⟨happyView, happyContracts, [], FaultFlags.none⟩

/-- Cache wrapper identical to `cwHappy` except the involved-address
persistence fails. -/
def cwSetTxRelFails : CCacheWrapper :=
  ⟨happyView, happyContracts, [], ⟨false, false, false, true, false⟩⟩

/-- Cache wrapper with the sender account but no contract records. -/
def cwNoContract : CCacheWrapper :=
  ⟨happyView, ⟨[], [], 1⟩, [], FaultFlags.none⟩

/-- Invoke transaction: registered sender (1,1) pays fee 10 and transfers
50 to contract (2,2). -/
def invokeTxGood : CContractInvokeTx :=
  ⟨.regId ⟨1, 1⟩, .regId ⟨2, 2⟩, 10, 50, "", 0, ⟨7⟩, 0, 99⟩

/-- Engine that succeeds without touching anything. -/
def idEngine : EngineFun := fun _ cw _ _ => ⟨true, 0, "", [], [], cw⟩

/-- Invoke transaction whose uint64 sum `llFees + bcoins` wraps around:
the declared fee is the maximal uint64 and the transferred value is 2. -/
def invokeTxOverflow : CContractInvokeTx :=
  ⟨.regId ⟨1, 1⟩, .regId ⟨2, 2⟩, 18446744073709551615, 2, "", 0, ⟨7⟩, 0, 98⟩

/-- The cache state handed to the engine on the happy-path run: sender
debited to 940, destination credited to 50. -/
def cwHappyMid : CCacheWrapper :=
  ⟨⟨[(⟨11⟩, ⟨⟨11⟩, ⟨1, 1⟩, 0, some ⟨7⟩, 940⟩),
     (⟨22⟩, ⟨⟨22⟩, ⟨2, 2⟩, 0, none, 50⟩)],
    [(⟨1, 1⟩, ⟨11⟩), (⟨2, 2⟩, ⟨22⟩)]⟩,
   happyContracts, [], FaultFlags.none⟩

/-- A raw public key acting as sender with no prior registration id. -/
def pkSender : CPubKey := ⟨33⟩

/-- The account of `pkSender`: key id derived from the key, empty regid,
no owner key yet, balance 500. -/
def pkSenderAccount : CAccount := ⟨⟨33⟩, ⟨0, 0⟩, 0, none, 500⟩

/-- Ledger view holding the public-key sender and the contract account. -/
def pkView : CAccountDBCache :=
  ⟨[(⟨33⟩, pkSenderAccount), (⟨22⟩, destAccount)], [(⟨2, 2⟩, ⟨22⟩)]⟩

/-- Healthy cache wrapper for the public-key-sender scenario. -/
def cwPk : CCacheWrapper := ⟨pkView, happyContracts, [], FaultFlags.none⟩

/-- Invoke transaction sent by the raw public key `pkSender`. -/
def invokeTxPk : CContractInvokeTx :=
  ⟨.pubKey ⟨33⟩, .regId ⟨2, 2⟩, 10, 50, "", 0, ⟨33⟩, 0, 77⟩

/-! ## Helper lemmas -/

theorem mem_insertKey {a k : CKeyID} {s : List CKeyID} :
    a ∈ insertKey k s ↔ a = k ∨ a ∈ s := by
  unfold insertKey
  split
  · constructor
    · exact fun h => Or.inr h
    · rintro (rfl | h) <;> assumption
  · simp [or_comm]

theorem mem_insertKey_self (k : CKeyID) (s : List CKeyID) :
    k ∈ insertKey k s :=
  mem_insertKey.mpr (Or.inl rfl)

theorem mem_insertKey_of_mem {a : CKeyID} (k : CKeyID) {s : List CKeyID}
    (h : a ∈ s) : a ∈ insertKey k s :=
  mem_insertKey.mpr (Or.inr h)

/-! ## Claim C8: the string-based identifier resolver -/

/-- C8: the string resolver `GetKeyId` succeeds only for inputs of exactly
two lengths — length 6 is resolved as a registration identifier via the
account ledger view, length 34 is interpreted directly as an
address-derived key id without consulting the ledger; every input of any
other length fails, and every input whose resolved key id is empty
fails. -/
theorem getKeyId_length_dispatch :
    (∀ (view : CAccountDBCache) (s : String),
        s.length ≠ 6 → s.length ≠ 34 → GetKeyId view s = none) ∧
    (∀ (view view' : CAccountDBCache) (s : String),
        s.length = 34 → GetKeyId view s = GetKeyId view' s) ∧
    (∀ (view : CAccountDBCache) (s : String), s.length = 6 →
        GetKeyId view s =
          (if ((regIdOfString s).GetKeyId view).IsEmpty then none
           else some ((regIdOfString s).GetKeyId view))) ∧
    (∀ (view : CAccountDBCache) (s : String) (k : CKeyID),
        GetKeyId view s = some k →
        (s.length = 6 ∨ s.length = 34) ∧ k.IsEmpty = false) := by
  refine ⟨?_, ?_, ?_, ?_⟩
  · intro view s h6 h34
    simp [GetKeyId, h6, h34]
  · intro view view' s h34
    have h6 : s.length ≠ 6 := by omega
    simp [GetKeyId, h6, h34]
  · intro view s h6
    simp [GetKeyId, h6]
  · intro view s k h
    by_cases h6 : s.length = 6
    · simp only [GetKeyId, h6, if_true] at h
      constructor
      · exact Or.inl h6
      · by_cases he : ((regIdOfString s).GetKeyId view).IsEmpty
        · simp [he] at h
        · simp [he] at h
          simpa [← h] using Bool.of_not_eq_true he
    · by_cases h34 : s.length = 34
      · simp only [GetKeyId, h6, if_false, h34, if_true] at h
        constructor
        · exact Or.inr h34
        · by_cases he : (keyIdFromAddress s).IsEmpty
          · simp [he] at h
          · simp [he] at h
            simpa [← h] using Bool.of_not_eq_true he
      · simp [GetKeyId, h6, h34] at h

/-- Witness for C8: concrete evaluations through the theorem — a
length-3 string fails resolution. -/
theorem getKeyId_length_dispatch_witness :
    GetKeyId ⟨[], []⟩ "abc" = none :=
  getKeyId_length_dispatch.1 ⟨[], []⟩ "abc" (by decide) (by decide)

/-! ## Claim C9: involved key ids of an invoke transaction -/

/-- C9: `GetInvolvedKeyIds` of an invoke transaction fails whenever the
sender's or the destination application's key id cannot be resolved via
the ledger view, and on success the returned set contains both resolved
key ids. -/
theorem invoke_getInvolvedKeyIds_spec :
    (∀ (cw : CCacheWrapper) (tx : CContractInvokeTx) (keyIds : List CKeyID),
        (cw.accountCache.GetKeyId tx.txUid = none ∨
         cw.accountCache.GetKeyId tx.appUid = none) →
        tx.GetInvolvedKeyIds cw keyIds = none) ∧
    (∀ (cw : CCacheWrapper) (tx : CContractInvokeTx)
        (keyIds out : List CKeyID),
        tx.GetInvolvedKeyIds cw keyIds = some out →
        ∃ k dk, cw.accountCache.GetKeyId tx.txUid = some k ∧
          cw.accountCache.GetKeyId tx.appUid = some dk ∧
          k ∈ out ∧ dk ∈ out) := by
  constructor
  · intro cw tx keyIds h
    unfold CContractInvokeTx.GetInvolvedKeyIds
    rcases h with h | h
    · simp [h]
    · cases hsrc : cw.accountCache.GetKeyId tx.txUid <;> simp [hsrc, h]
  · intro cw tx keyIds out h
    unfold CContractInvokeTx.GetInvolvedKeyIds at h
    cases hsrc : cw.accountCache.GetKeyId tx.txUid with
    | none => simp [hsrc] at h
    | some k =>
      simp only [hsrc] at h
      cases hdes : cw.accountCache.GetKeyId tx.appUid with
      | none => simp [hdes] at h
      | some dk =>
        simp only [hdes, Option.some.injEq] at h
        refine ⟨k, dk, rfl, rfl, ?_, ?_⟩
        · rw [← h]
          exact mem_insertKey_of_mem _ (mem_insertKey_self _ _)
        · rw [← h]
          exact mem_insertKey_self _ _

/-- Witness for C9: a concrete failing resolution — an empty ledger view
cannot resolve a regid sender, so the extractor fails. -/
theorem invoke_getInvolvedKeyIds_witness :
    CContractInvokeTx.GetInvolvedKeyIds
      ⟨⟨[], []⟩, ⟨[], [], 1⟩, [], FaultFlags.none⟩
      ⟨.regId ⟨1, 1⟩, .regId ⟨2, 2⟩, 10, 5, "", 0, ⟨7⟩, 0, 99⟩ [] = none :=
  invoke_getInvolvedKeyIds_spec.1
    ⟨⟨[], []⟩, ⟨[], [], 1⟩, [], FaultFlags.none⟩
    ⟨.regId ⟨1, 1⟩, .regId ⟨2, 2⟩, 10, 5, "", 0, ⟨7⟩, 0, 99⟩ []
    (Or.inl (by decide))

/-! ## Claim C1: the fuel-affordability check of deploy CheckTx -/

/-- C1 counterexample: a deploy transaction whose declared fee is strictly
below the fuel cost but whose sender is a raw public key is rejected with
the sender-type reason, not with "fee-too-litter-to-afford-fuel" — so the
claimed iff fails right-to-left on this input. -/
theorem deploy_checkTx_fuel_iff_counterexample :
    pubkeyDeployTx.llFees <
      pubkeyDeployTx.GetFuel (GetFuelRate cwRate100.contractCache) ∧
    (pubkeyDeployTx.CheckTx paramsVer1 10 cwRate100).1 = false ∧
    (pubkeyDeployTx.CheckTx paramsVer1 10 cwRate100).2 =
      some ⟨100, REJECT_INVALID, "deploytx-error-txuid-type"⟩ := by
  refine ⟨by decide, by decide, by decide⟩

/-- Inversion helper: a deploy `CheckTx` rejection carrying the fuel
reason can only arise from the fuel-affordability branch. -/
theorem deploy_checkTx_reason_fuel_imp
    (p : ChainParams) (height : Nat) (cw : CCacheWrapper)
    (tx : CContractDeployTx)
    (h : (tx.CheckTx p height cw).2 =
      some ⟨100, REJECT_INVALID, "fee-too-litter-to-afford-fuel"⟩) :
    tx.llFees < tx.GetFuel (GetFuelRate cw.contractCache) := by
  simp only [CContractDeployTx.CheckTx] at h
  repeat' split at h
  all_goals first | assumption | simp_all

/-- C1 amended: whenever deploy `CheckTx` rejects with
"fee-too-litter-to-afford-fuel" the declared fee is strictly below the
fuel cost; and for a transaction passing the preceding checks (fee floor,
regid-typed sender, valid payload) the rejection with that reason happens
exactly when `llFees` is strictly below the fuel cost — so a fee exactly
equal to the fuel cost passes this check. -/
theorem deploy_checkTx_fuel_boundary
    (p : ChainParams) (height : Nat) (cw : CCacheWrapper)
    (tx : CContractDeployTx) :
    ((tx.CheckTx p height cw).2 =
        some ⟨100, REJECT_INVALID, "fee-too-litter-to-afford-fuel"⟩ →
      tx.llFees < tx.GetFuel (GetFuelRate cw.contractCache)) ∧
    (p.minTxFee ≤ tx.llFees → tx.txUid.isRegId = true →
      tx.contract.IsValid = true →
      ((tx.CheckTx p height cw).2 =
          some ⟨100, REJECT_INVALID, "fee-too-litter-to-afford-fuel"⟩ ↔
        tx.llFees < tx.GetFuel (GetFuelRate cw.contractCache))) := by
  refine ⟨deploy_checkTx_reason_fuel_imp p height cw tx, ?_⟩
  intro hfee huid hvalid
  constructor
  · exact deploy_checkTx_reason_fuel_imp p height cw tx
  · intro h4
    have h1 : ¬ tx.llFees < p.minTxFee := by omega
    simp [CContractDeployTx.CheckTx, h1, huid, hvalid, h4]

/-- Witness for C1's amended theorem: exercised on the equal-fee boundary
instance, the fuel check passes — the sink is not the fuel rejection. -/
theorem deploy_checkTx_fuel_boundary_witness :
    (regidDeployTx.CheckTx paramsVer1 10 cwRate100).2 ≠
      some ⟨100, REJECT_INVALID, "fee-too-litter-to-afford-fuel"⟩ := by
  intro h
  have h2 :=
    ((deploy_checkTx_fuel_boundary paramsVer1 10 cwRate100 regidDeployTx).2
      (by decide) (by decide) (by decide)).mp h
  revert h2
  decide

/-! ## Claim C3: the fork-gated per-KB relay-fee check -/

/-- C3: the per-KB relay-fee rejection of deploy `CheckTx` is gated on the
feature-fork version being exactly `MAJOR_VER_R2`: at any height whose
fork version differs no transaction is rejected with the per-KB reason,
and when the version equals the marker a transaction passing the earlier
checks whose fee-per-KB is below the relay floor is rejected with exactly
that reason. -/
theorem deploy_checkTx_perKb_fork_gated
    (p : ChainParams) (height : Nat) (cw : CCacheWrapper)
    (tx : CContractDeployTx) :
    (GetFeatureForkVersion p height ≠ MAJOR_VER_R2 →
      (tx.CheckTx p height cw).2 ≠
        some ⟨100, REJECT_INVALID, "fee-too-litter-in-fees/Kb"⟩) ∧
    (GetFeatureForkVersion p height = MAJOR_VER_R2 →
      p.minTxFee ≤ tx.llFees → tx.txUid.isRegId = true →
      tx.contract.IsValid = true →
      tx.GetFuel (GetFuelRate cw.contractCache) ≤ tx.llFees →
      feePerKbBelowMin tx.llFees (tx.GetFuel (GetFuelRate cw.contractCache))
        tx.serializedSize p.nMinRelayTxFee = true →
      tx.CheckTx p height cw =
        (false, some ⟨100, REJECT_INVALID, "fee-too-litter-in-fees/Kb"⟩)) := by
  constructor
  · intro hver h
    have hbeq : (GetFeatureForkVersion p height == MAJOR_VER_R2) = false := by
      simpa using hver
    simp only [CContractDeployTx.CheckTx, hbeq, Bool.false_and] at h
    repeat' split at h
    all_goals simp_all
  · intro hver hfee huid hvalid hfuel hkb
    have h1 : ¬ tx.llFees < p.minTxFee := by omega
    have h4 : ¬ tx.llFees < tx.GetFuel (GetFuelRate cw.contractCache) := by omega
    have hbeq : (GetFeatureForkVersion p height == MAJOR_VER_R2) = true := by
      simpa using hver
    simp [CContractDeployTx.CheckTx, h1, huid, hvalid, h4, hbeq, hkb]

/-- Witness for C3: the concrete boundary deploy transaction (fee equal to
fuel, 1000-byte size, relay floor 5) under the legacy fork version is
rejected with exactly the per-KB reason. -/
theorem deploy_checkTx_perKb_fork_gated_witness :
    regidDeployTx.CheckTx paramsVer2 10 cwRate100 =
      (false, some ⟨100, REJECT_INVALID, "fee-too-litter-in-fees/Kb"⟩) :=
  (deploy_checkTx_perKb_fork_gated paramsVer2 10 cwRate100 regidDeployTx).2
    (by decide) (by decide) (by decide) (by decide) (by decide)
    (by unfold feePerKbBelowMin regidDeployTx cwRate100 rate100Contracts
        norm_num [GetFuelRate, CContractDeployTx.GetFuel,
          CLuaContract.GetContractSize]
        decide)

/-! ## Claim C6: invoking a non-existent contract -/

/-- C6: an invoke transaction whose destination regid has no contract
record always fails `CheckTx`, so the check-then-execute pipeline leaves
the state untouched and no balance moves; moreover, when all preceding
checks pass the recorded rejection reason is exactly "bad-read-script". -/
theorem invoke_checkTx_missing_contract
    (p : ChainParams) (height index : Nat) (cw : CCacheWrapper)
    (tx : CContractInvokeTx) (engine : EngineFun)
    (hmiss : cw.contractCache.GetContract tx.appUid.getRegIdValue = none) :
    (tx.CheckTx p height cw).1 = false ∧
    applyInvokeTx p height index cw tx engine = cw ∧
    (p.minTxFee ≤ tx.llFees → tx.arguments.length ≤ 4096 →
      (tx.txUid.isRegId || tx.txUid.isPubKey) = true →
      tx.appUid.isRegId = true →
      (∀ pk, tx.txUid = .pubKey pk → pk.IsFullyValid = true) →
      (∀ a, cw.accountCache.GetAccount tx.txUid = some a →
        a.HaveOwnerPubKey = true) →
      cw.accountCache.GetAccount tx.txUid ≠ none →
      (tx.CheckTx p height cw).2 =
        some ⟨100, REJECT_INVALID, "bad-read-script"⟩) := by
  have hfalse : (tx.CheckTx p height cw).1 = false := by
    simp only [CContractInvokeTx.CheckTx]
    repeat' split
    all_goals simp_all
  refine ⟨hfalse, ?_, ?_⟩
  · simp [applyInvokeTx, hfalse]
  · intro hfee harg huid happ hpkv hhave hacct
    have h1 : ¬ tx.llFees < p.minTxFee := by omega
    have h2 : ¬ 4096 < tx.arguments.length := by omega
    have h3 : (match tx.txUid with
               | .pubKey pk => !pk.IsFullyValid
               | _ => false) = false := by
      cases htx : tx.txUid with
      | pubKey pk => simp [hpkv pk htx]
      | regId r => rfl
      | keyId k => rfl
      | nullId => rfl
    cases hacc : cw.accountCache.GetAccount tx.txUid with
    | none => exact absurd hacc hacct
    | some a =>
      have h4 := hhave a hacc
      simp [CContractInvokeTx.CheckTx, h1, h2, huid, happ, h3, hacc, h4, hmiss]

/-- Witness for C6: the concrete invoke transaction against a cache with
no contract records is rejected with "bad-read-script" and the pipeline
leaves the cache unchanged. -/
theorem invoke_checkTx_missing_contract_witness :
    (invokeTxGood.CheckTx paramsVer1 10 cwNoContract).1 = false ∧
    applyInvokeTx paramsVer1 10 0 cwNoContract invokeTxGood idEngine =
      cwNoContract ∧
    (invokeTxGood.CheckTx paramsVer1 10 cwNoContract).2 =
      some ⟨100, REJECT_INVALID, "bad-read-script"⟩ := by
  have h := invoke_checkTx_missing_contract paramsVer1 10 0 cwNoContract
    invokeTxGood idEngine (by decide)
  refine ⟨h.1, h.2.1, h.2.2 (by decide) (by decide) (by decide) (by decide)
    ?_ ?_ (by decide)⟩
  · intro pk hpk
    simp [invokeTxGood] at hpk
  · intro a ha
    rw [show cwNoContract.accountCache.GetAccount invokeTxGood.txUid =
          some senderAccount by decide] at ha
    obtain rfl : senderAccount = a := Option.some.inj ha
    decide

/-! ## Claim C7: the sink discipline of the failure paths -/

theorem setTxRelAccout_none_iff (cw : CCacheWrapper) (h : Nat)
    (ks : List CKeyID) :
    cw.SetTxRelAccout h ks = none ↔ cw.faults.setTxRelFail = true := by
  unfold CCacheWrapper.SetTxRelAccout
  split <;> simp_all

theorem invokePostEngine_sink (height index : Nat) (tx : CContractInvokeTx)
    (cw2 : CCacheWrapper) (er : EngineRun) (ev5 : List Event)
    (h : (invokePostEngine height index tx cw2 er ev5).ok = false) :
    ((invokePostEngine height index tx cw2 er ev5).sink).isSome = true ∨
    ((invokePostEngine height index tx cw2 er ev5).sink = none ∧
      (invokePostEngine height index tx cw2 er ev5).cw.faults.setTxRelFail
        = true) := by
  revert h
  simp only [invokePostEngine]
  repeat' split
  all_goals intro h
  all_goals simp_all [setTxRelAccout_none_iff]

/-- C7 counterexample: a run of invoke `ExecuteTx` in which the
involved-address persistence (`SetTxRelAccout`) fails returns false while
leaving the validation-state sink empty — the bare `ERRORMSG` return of
source lines 343-344. -/
theorem invoke_executeTx_silent_failure_counterexample :
    (invokeTxGood.ExecuteTx 10 0 cwSetTxRelFails idEngine).ok = false ∧
    (invokeTxGood.ExecuteTx 10 0 cwSetTxRelFails idEngine).sink = none := by
  exact ⟨by decide, by decide⟩

/-- C7 amended: every failure path of deploy/invoke `CheckTx` and
`ExecuteTx` records a sink entry, with the single exception of the
`SetTxRelAccout`-persistence failure inside invoke `ExecuteTx`, which
returns false with the sink left empty after the involved-address write
failed. -/
theorem tx_failure_sink_discipline :
    (∀ (p : ChainParams) (height : Nat) (cw : CCacheWrapper)
        (tx : CContractDeployTx),
      (tx.CheckTx p height cw).1 = false →
        ((tx.CheckTx p height cw).2).isSome = true) ∧
    (∀ (height index : Nat) (cw : CCacheWrapper) (tx : CContractDeployTx),
      (tx.ExecuteTx height index cw).ok = false →
        ((tx.ExecuteTx height index cw).sink).isSome = true) ∧
    (∀ (p : ChainParams) (height : Nat) (cw : CCacheWrapper)
        (tx : CContractInvokeTx),
      (tx.CheckTx p height cw).1 = false →
        ((tx.CheckTx p height cw).2).isSome = true) ∧
    (∀ (height index : Nat) (cw : CCacheWrapper) (tx : CContractInvokeTx)
        (engine : EngineFun),
      (tx.ExecuteTx height index cw engine).ok = false →
        ((tx.ExecuteTx height index cw engine).sink).isSome = true ∨
        ((tx.ExecuteTx height index cw engine).sink = none ∧
          (tx.ExecuteTx height index cw engine).cw.faults.setTxRelFail
            = true)) := by
  refine ⟨?_, ?_, ?_, ?_⟩
  · intro p height cw tx
    simp only [CContractDeployTx.CheckTx]
    repeat' split
    all_goals intro h
    all_goals simp_all
  · intro height index cw tx
    simp only [CContractDeployTx.ExecuteTx]
    repeat' split
    all_goals intro h
    all_goals simp_all
  · intro p height cw tx
    simp only [CContractInvokeTx.CheckTx]
    repeat' split
    all_goals intro h
    all_goals simp_all
  · intro height index cw tx engine
    simp only [CContractInvokeTx.ExecuteTx]
    repeat' split
    all_goals
      first
        | exact fun h => invokePostEngine_sink _ _ _ _ _ _ h
        | (intro h; simp_all)

/-- Witness for C7's amended theorem: the deploy check on the concrete
underfunded public-key transaction fails with a populated sink. -/
theorem tx_failure_sink_discipline_witness :
    ((pubkeyDeployTx.CheckTx paramsVer1 10 cwRate100).2).isSome = true :=
  tx_failure_sink_discipline.1 paramsVer1 10 cwRate100 pubkeyDeployTx
    (by decide)

/-! ## Claim C5: contract identifier minting at deployment -/

theorem listEncode_injective : Function.Injective listEncode := by
  intro a b h
  induction a generalizing b with
  | nil =>
    cases b with
    | nil => rfl
    | cons y u => simp [listEncode] at h
  | cons x t ih =>
    cases b with
    | nil => simp [listEncode] at h
    | cons y u =>
      simp only [listEncode, Nat.add_right_cancel_iff] at h
      obtain ⟨hxy, htu⟩ := Nat.pair_eq_pair.mp h
      rw [hxy, ih htu]

theorem hash160_injective : Function.Injective Hash160 := by
  intro a b h
  exact listEncode_injective (congrArg CKeyID.val h)

/-- C5: a successful deploy `ExecuteTx` at (height, index) persists, via
the create path, a contract account whose regid is minted exactly from
(height, index), whose key id is the `Hash160` of that regid's raw bytes,
and which carries no owner public key and no nickname, together with the
contract record under the same minted regid; and for any two distinct
(height, index) pairs both the minted regids and the derived key ids are
distinct. -/
theorem deploy_executeTx_minting
    (height index : Nat) (cw : CCacheWrapper) (tx : CContractDeployTx) :
    ((tx.ExecuteTx height index cw).ok = true →
      Event.saveAcct
          ⟨Hash160 (CRegID.GetRegIdRaw ⟨height, index⟩), ⟨height, index⟩,
            0, none, 0⟩ ∈ (tx.ExecuteTx height index cw).events ∧
      Event.saveContractEv ⟨height, index⟩
          ⟨LUA_VM, tx.contract.code, "", tx.contract.memo⟩ ∈
        (tx.ExecuteTx height index cw).events) ∧
    (∀ height2 index2 : Nat, (height, index) ≠ (height2, index2) →
      (⟨height, index⟩ : CRegID) ≠ ⟨height2, index2⟩ ∧
      Hash160 (CRegID.GetRegIdRaw ⟨height, index⟩) ≠
        Hash160 (CRegID.GetRegIdRaw ⟨height2, index2⟩)) := by
  constructor
  · simp only [CContractDeployTx.ExecuteTx]
    repeat' split
    all_goals intro h
    all_goals simp_all
  · intro height2 index2 hne
    have hpair : ¬(height = height2 ∧ index = index2) := by
      intro ⟨h1, h2⟩
      exact hne (by rw [h1, h2])
    constructor
    · intro hc
      exact hpair ⟨congrArg CRegID.height hc, congrArg CRegID.index hc⟩
    · intro hc
      have := hash160_injective hc
      simp only [CRegID.GetRegIdRaw, List.cons.injEq, and_true] at this
      exact hpair ⟨this.1, this.2⟩

/-- Witness for C5: the concrete deploy execution at (10, 3) persists the
minted contract account and record, and the derived identifiers differ
from those of (10, 4). -/
theorem deploy_executeTx_minting_witness :
    Event.saveAcct
        ⟨Hash160 (CRegID.GetRegIdRaw ⟨10, 3⟩), ⟨10, 3⟩, 0, none, 0⟩ ∈
      (regidDeployTx.ExecuteTx 10 3 cwHappy).events ∧
    Hash160 (CRegID.GetRegIdRaw ⟨10, 3⟩) ≠
      Hash160 (CRegID.GetRegIdRaw ⟨10, 4⟩) := by
  have h := deploy_executeTx_minting 10 3 cwHappy regidDeployTx
  exact ⟨(h.1 (by decide)).1, (h.2 10 4 (by decide)).2⟩

/-! ## Claim C2: balance discipline of invoke ExecuteTx -/

theorem operateBalance_sub_eq_some (a b : CAccount) (v : Nat) :
    a.OperateBalance .SUB_FREE v = some b ↔
      v ≤ a.free_bcoins ∧ b = { a with free_bcoins := a.free_bcoins - v } := by
  unfold CAccount.OperateBalance
  by_cases hlt : a.free_bcoins < v
  · simp only [hlt, if_true]
    constructor
    · intro h
      exact absurd h (by simp)
    · rintro ⟨h1, -⟩
      omega
  · simp only [hlt, if_false, Option.some.injEq]
    constructor
    · intro h
      exact ⟨by omega, h.symm⟩
    · rintro ⟨-, h⟩
      exact h.symm

theorem operateBalance_add_eq_some (a b : CAccount) (v : Nat) :
    a.OperateBalance .ADD_FREE v = some b ↔
      b = { a with free_bcoins := a.free_bcoins + v } := by
  unfold CAccount.OperateBalance
  simp [eq_comm]

theorem invokePostEngine_events_prefix (height index : Nat)
    (tx : CContractInvokeTx) (cw2 : CCacheWrapper) (er : EngineRun)
    (ev5 : List Event) :
    ∃ rest, (invokePostEngine height index tx cw2 er ev5).events =
      ev5 ++ rest := by
  simp only [invokePostEngine]
  repeat' split
  all_goals
    first
      | exact ⟨[], (List.append_nil _).symm⟩
      | (simp only [List.append_assoc]; exact ⟨_, rfl⟩)

theorem invokePostEngine_events_take5 (height index : Nat)
    (tx : CContractInvokeTx) (cw2 : CCacheWrapper) (er : EngineRun)
    (e1 e2 e3 e4 e5 : Event) :
    (invokePostEngine height index tx cw2 er
        [e1, e2, e3, e4, e5]).events.take 5 = [e1, e2, e3, e4, e5] := by
  obtain ⟨rest, hrest⟩ :=
    invokePostEngine_events_prefix height index tx cw2 er [e1, e2, e3, e4, e5]
  rw [hrest]
  rfl

/-- C2 counterexample: with `llFees + bcoins` exceeding the sender's
balance (because the uint64 sum wraps to 1), invoke `ExecuteTx` does not
fail on insufficient funds — it succeeds, debits exactly the wrapped
value 1 and leaves the sender at balance 999, contradicting the claimed
exact debit of `llFees + bcoins`. -/
theorem invoke_executeTx_exact_debit_counterexample :
    senderAccount.free_bcoins <
      invokeTxOverflow.llFees + invokeTxOverflow.bcoins ∧
    cwHappy.accountCache.GetAccount invokeTxOverflow.txUid =
      some senderAccount ∧
    (invokeTxOverflow.ExecuteTx 10 0 cwHappy idEngine).ok = true ∧
    Event.subFree senderAccount.keyid 1 ∈
      (invokeTxOverflow.ExecuteTx 10 0 cwHappy idEngine).events ∧
    lookupAssoc ⟨11⟩
        (invokeTxOverflow.ExecuteTx 10 0 cwHappy idEngine).cw.accountCache.accounts =
      some ⟨⟨11⟩, ⟨1, 1⟩, 0, some ⟨7⟩, 999⟩ := by
  exact ⟨by decide, by decide, by decide, by decide, by decide⟩

set_option maxRecDepth 4000 in
/-- C2 amended: invoke `ExecuteTx` debits exactly the uint64 sum
`(llFees + bcoins) mod 2^64` from the sender's free balance — a balance
strictly below that wrapped sum is fatal with the
"operate-minus-account-failed" rejection and no state change — credits
exactly `bcoins` to the destination, and whenever the engine is invoked
the debit, the sender persist, the credit and the destination persist are
exactly the four trace events strictly preceding the engine
invocation. -/
theorem invoke_executeTx_balance_discipline
    (height index : Nat) (cw : CCacheWrapper) (tx : CContractInvokeTx)
    (engine : EngineFun) (src0 : CAccount)
    (hacc : cw.accountCache.GetAccount tx.txUid = some src0) :
    (src0.free_bcoins < (tx.llFees + tx.bcoins) % UINT64_MOD →
      (tx.ExecuteTx height index cw engine).ok = false ∧
      (tx.ExecuteTx height index cw engine).sink =
        some ⟨100, UPDATE_ACCOUNT_FAIL, "operate-minus-account-failed"⟩ ∧
      (tx.ExecuteTx height index cw engine).cw = cw) ∧
    (∀ cwE, (tx.ExecuteTx height index cw engine).engineCw = some cwE →
      ∃ (pe : Event) (dk : CKeyID) (d1 src2 : CAccount),
        (tx.ExecuteTx height index cw engine).events.take 5 =
          [Event.subFree src0.keyid ((tx.llFees + tx.bcoins) % UINT64_MOD),
           pe, Event.addFree dk tx.bcoins, Event.setAcct dk d1,
           Event.engineInvoked] ∧
        (pe = Event.saveAcct src2 ∨
         pe = Event.setAcct src0.keyid src2) ∧
        src2.keyid = src0.keyid ∧
        src2.free_bcoins =
          src0.free_bcoins - (tx.llFees + tx.bcoins) % UINT64_MOD) := by
  constructor
  · intro hlt
    simp only [CContractInvokeTx.ExecuteTx, hacc]
    repeat' split
    all_goals simp_all [CAccount.OperateBalance]
    all_goals omega
  · intro cwE
    simp only [CContractInvokeTx.ExecuteTx, hacc]
    repeat' split
    all_goals intro hE
    all_goals
      first
        | (simp_all only [operateBalance_sub_eq_some,
             operateBalance_add_eq_some, not_true, eq_self_iff_true]
           first
             | exact ⟨_, _, _, _,
                 invokePostEngine_events_take5 _ _ _ _ _ _ _ _ _ _,
                 Or.inl rfl, rfl, rfl⟩
             | exact ⟨_, _, _, _,
                 invokePostEngine_events_take5 _ _ _ _ _ _ _ _ _ _,
                 Or.inr rfl, rfl, rfl⟩)
        | (exfalso; simp at hE; done)
        | exact absurd rfl ‹¬_›

/-- Witness for C2's amended theorem: on the concrete happy-path run the
engine is reached and the first five trace events are the debit of 60,
the sender persist, the credit of 50, the destination persist and the
engine invocation. -/
theorem invoke_executeTx_balance_discipline_witness :
    ∃ pe dk d1 src2,
      (invokeTxGood.ExecuteTx 10 0 cwHappy idEngine).events.take 5 =
        [Event.subFree senderAccount.keyid
           ((invokeTxGood.llFees + invokeTxGood.bcoins) % UINT64_MOD),
         pe, Event.addFree dk invokeTxGood.bcoins, Event.setAcct dk d1,
         Event.engineInvoked] ∧
      (pe = Event.saveAcct src2 ∨
       pe = Event.setAcct senderAccount.keyid src2) ∧
      src2.keyid = senderAccount.keyid ∧
      src2.free_bcoins = senderAccount.free_bcoins -
        (invokeTxGood.llFees + invokeTxGood.bcoins) % UINT64_MOD :=
  (invoke_executeTx_balance_discipline 10 0 cwHappy invokeTxGood idEngine
    senderAccount (by decide)).2 cwHappyMid (by decide)

/-! ## Claim C4: raw-public-key senders and lazy regid assignment -/

theorem invokePostEngine_events_take2 (height index : Nat)
    (tx : CContractInvokeTx) (cw2 : CCacheWrapper) (er : EngineRun)
    (e1 e2 e3 e4 e5 : Event) :
    (invokePostEngine height index tx cw2 er
        [e1, e2, e3, e4, e5]).events.take 2 = [e1, e2] := by
  obtain ⟨rest, hrest⟩ :=
    invokePostEngine_events_prefix height index tx cw2 er [e1, e2, e3, e4, e5]
  rw [hrest]
  rfl

/-- C4: for an invoke transaction whose sender identity is a raw public
key, `ExecuteTx` attaches that key as the account's owner public key, and
exactly when the account has no registration id yet it mints one from
(height, index) and persists the sender via the create path
(`SaveAccount`); when a registration id already exists the sender is
persisted via the update path (`SetAccount`) with its regid unchanged. -/
theorem invoke_executeTx_pubkey_lazy_regid
    (height index : Nat) (cw : CCacheWrapper) (tx : CContractInvokeTx)
    (engine : EngineFun) (pk : CPubKey) (src0 : CAccount)
    (hpk : tx.txUid = .pubKey pk)
    (hacc : cw.accountCache.GetAccount tx.txUid = some src0)
    (hfunds : (tx.llFees + tx.bcoins) % UINT64_MOD ≤ src0.free_bcoins)
    (hsave : cw.faults.saveAccountFail = false)
    (hset : cw.faults.setAccountFail = false)
    (hkey : src0.keyid.IsEmpty = false) :
    (src0.regid.IsEmpty = true →
      (tx.ExecuteTx height index cw engine).events.take 2 =
        [Event.subFree src0.keyid ((tx.llFees + tx.bcoins) % UINT64_MOD),
         Event.saveAcct
           ⟨src0.keyid, ⟨height, index⟩, src0.nickid, some pk,
             src0.free_bcoins - (tx.llFees + tx.bcoins) % UINT64_MOD⟩]) ∧
    (src0.regid.IsEmpty = false →
      (tx.ExecuteTx height index cw engine).events.take 2 =
        [Event.subFree src0.keyid ((tx.llFees + tx.bcoins) % UINT64_MOD),
         Event.setAcct src0.keyid
           ⟨src0.keyid, src0.regid, src0.nickid, some pk,
             src0.free_bcoins - (tx.llFees + tx.bcoins) % UINT64_MOD⟩]) := by
  have hnlt : ¬ (src0.free_bcoins < (tx.llFees + tx.bcoins) % UINT64_MOD) :=
    not_lt.mpr hfunds
  constructor
  · intro hempty
    have hregid : cw.accountCache.GetRegId tx.txUid = none := by
      simp [CAccountDBCache.GetRegId, hacc, hempty]
    rw [hpk] at hacc hregid
    simp only [CContractInvokeTx.ExecuteTx, hpk, hacc, hregid,
      CAccount.OperateBalance, CCacheWrapper.SaveAccount, hsave, hnlt,
      if_false, Bool.false_eq_true, ite_false, ite_true]
    repeat' split
    all_goals
      first
        | rfl
        | exact invokePostEngine_events_take2 _ _ _ _ _ _ _ _ _ _
  · intro hfull
    have hregid : cw.accountCache.GetRegId tx.txUid = some src0.regid := by
      simp [CAccountDBCache.GetRegId, hacc, hfull]
    rw [hpk] at hacc hregid
    simp only [CContractInvokeTx.ExecuteTx, hpk, hacc, hregid,
      CAccount.OperateBalance, CCacheWrapper.SetAccount, hset,
      CAccountDBCache.GetKeyId, hkey, hnlt,
      if_false, Bool.false_eq_true, ite_false, ite_true]
    repeat' split
    all_goals
      first
        | rfl
        | exact invokePostEngine_events_take2 _ _ _ _ _ _ _ _ _ _

/-- Witness for C4: the concrete public-key sender without a regid is
debited and then persisted via the create path, with the minted regid
(10, 0) and the attached owner key. -/
theorem invoke_executeTx_pubkey_lazy_regid_witness :
    (invokeTxPk.ExecuteTx 10 0 cwPk idEngine).events.take 2 =
      [Event.subFree pkSenderAccount.keyid
         ((invokeTxPk.llFees + invokeTxPk.bcoins) % UINT64_MOD),
       Event.saveAcct
         ⟨pkSenderAccount.keyid, ⟨10, 0⟩, pkSenderAccount.nickid,
           some ⟨33⟩, pkSenderAccount.free_bcoins -
             (invokeTxPk.llFees + invokeTxPk.bcoins) % UINT64_MOD⟩] :=
  (invoke_executeTx_pubkey_lazy_regid 10 0 cwPk invokeTxPk idEngine ⟨33⟩
    pkSenderAccount rfl (by decide) (by decide) (by decide) (by decide)
    (by decide)).1 (by decide)

/-! ## Claim C10: the persisted involved-address set -/

theorem lookupAssoc_setAssoc_self {α β : Type} [DecidableEq α]
    (k : α) (v : β) (l : List (α × β)) :
    lookupAssoc k (setAssoc k v l) = some v := by
  induction l with
  | nil => simp [setAssoc, lookupAssoc]
  | cons hd tl ih =>
    obtain ⟨k0, v0⟩ := hd
    by_cases hk : k0 = k
    · simp [setAssoc, lookupAssoc, hk]
    · simp [setAssoc, lookupAssoc, hk, ih]

theorem mergeEngineAccounts_ok_mem (accs : List CAccount)
    (cw : CCacheWrapper) (v0 : List CKeyID) (cwM : CCacheWrapper)
    (vA : List CKeyID) (evs : List Event)
    (h : mergeEngineAccounts cw v0 accs = .ok cwM vA evs) :
    ∀ k, k ∈ vA ↔ (∃ a ∈ accs, a.keyid = k) ∨ k ∈ v0 := by
  induction accs generalizing cw v0 evs with
  | nil =>
    intro k
    simp only [mergeEngineAccounts] at h
    cases h
    simp
  | cons item rest ih =>
    intro k
    simp only [mergeEngineAccounts] at h
    split at h
    · cases h
    · split at h
      · cases h
      · split at h
        · rename_i cw2 v2 evs2 hrec
          cases h
          rw [ih _ _ _ hrec k]
          simp only [List.mem_cons, mem_insertKey]
          constructor
          · rintro (⟨a, ha, rfl⟩ | (rfl | hv))
            · exact Or.inl ⟨a, Or.inr ha, rfl⟩
            · exact Or.inl ⟨item, Or.inl rfl, rfl⟩
            · exact Or.inr hv
          · rintro (⟨a, (rfl | ha), rfl⟩ | hv)
            · exact Or.inr (Or.inl rfl)
            · exact Or.inl ⟨a, ha, rfl⟩
            · exact Or.inr (Or.inr hv)
        · cases h

theorem resolveAppUserIds_mem (view : CAccountDBCache) (ids : List String)
    (v0 : List CKeyID) :
    ∀ k, k ∈ resolveAppUserIds view v0 ids ↔
      (∃ s ∈ ids, GetKeyId view s = some k) ∨ k ∈ v0 := by
  induction ids generalizing v0 with
  | nil =>
    intro k
    simp [resolveAppUserIds]
  | cons s rest ih =>
    intro k
    simp only [resolveAppUserIds]
    cases hres : GetKeyId view s with
    | none =>
      rw [ih v0 k]
      simp only [List.mem_cons]
      constructor
      · rintro (⟨t, ht, hres2⟩ | hv)
        · exact Or.inl ⟨t, Or.inr ht, hres2⟩
        · exact Or.inr hv
      · rintro (⟨t, (rfl | ht), hres2⟩ | hv)
        · rw [hres] at hres2
          cases hres2
        · exact Or.inl ⟨t, ht, hres2⟩
        · exact Or.inr hv
    | some k2 =>
      rw [ih (insertKey k2 v0) k]
      simp only [List.mem_cons, mem_insertKey]
      constructor
      · rintro (⟨t, ht, hres2⟩ | (rfl | hv))
        · exact Or.inl ⟨t, Or.inr ht, hres2⟩
        · exact Or.inl ⟨s, Or.inl rfl, hres⟩
        · exact Or.inr hv
      · rintro (⟨t, (rfl | ht), hres2⟩ | hv)
        · rw [hres] at hres2
          cases hres2
          exact Or.inr (Or.inl rfl)
        · exact Or.inl ⟨t, ht, hres2⟩
        · exact Or.inr (Or.inr hv)

theorem invokePostEngine_success (height index : Nat)
    (tx : CContractInvokeTx) (cw2 : CCacheWrapper) (er : EngineRun)
    (ev5 : List Event)
    (h : (invokePostEngine height index tx cw2 er ev5).ok = true) :
    ∃ cwM vA evs,
      mergeEngineAccounts er.cwAfter [] er.newAccounts = .ok cwM vA evs ∧
      (invokePostEngine height index tx cw2 er ev5).engineRun = some er ∧
      (invokePostEngine height index tx cw2 er ev5).cwMerged = some cwM ∧
      lookupAssoc tx.txHash
          (invokePostEngine height index tx cw2 er
            ev5).cw.contractCache.txRelAccounts =
        some (resolveAppUserIds cwM.accountCache vA er.appUserIds) := by
  revert h
  simp only [invokePostEngine]
  by_cases hs : er.success
  · rcases hmerge : mergeEngineAccounts er.cwAfter [] er.newAccounts with
      ⟨cwM, vA, evs⟩ | ⟨entry, cwF, evs⟩
    · rcases hrel : cwM.SetTxRelAccout tx.txHash
        (resolveAppUserIds cwM.accountCache vA er.appUserIds) with _ | cw3
      · simp [hs, hmerge, hrel]
      · rcases hsavetx : cw3.SaveTxAddresses height index
          [tx.txUid, tx.appUid] with _ | cw4
        · simp [hs, hmerge, hrel, hsavetx]
        · intro h
          have hcw3 : cw3.contractCache.txRelAccounts =
              setAssoc tx.txHash
                (resolveAppUserIds cwM.accountCache vA er.appUserIds)
                cwM.contractCache.txRelAccounts := by
            unfold CCacheWrapper.SetTxRelAccout at hrel
            split at hrel
            · cases hrel
            · cases hrel
              rfl
          have hcw4 : cw4.contractCache = cw3.contractCache := by
            unfold CCacheWrapper.SaveTxAddresses at hsavetx
            split at hsavetx
            · cases hsavetx
            · cases hsavetx
              rfl
          refine ⟨cwM, vA, evs, ?_, ?_, ?_, ?_⟩ <;>
            simp [hs, hmerge, hrel, hsavetx, hcw4, hcw3,
              lookupAssoc_setAssoc_self]
    · simp [hs, hmerge]
  · simp [hs]

/-- C10: on every successful invoke `ExecuteTx`, the involved-address set
persisted in the contract view under the transaction's hash consists
exactly of the key ids of the accounts returned by the engine together
with the successfully resolved application sub-account owner ids — in
particular, the sender's and destination's own key ids are absent unless
the engine reported them or an owner id resolves to them. -/
theorem invoke_executeTx_relaccounts
    (height index : Nat) (cw : CCacheWrapper) (tx : CContractInvokeTx)
    (engine : EngineFun)
    (h : (tx.ExecuteTx height index cw engine).ok = true) :
    ∃ er cwM keys,
      (tx.ExecuteTx height index cw engine).engineRun = some er ∧
      (tx.ExecuteTx height index cw engine).cwMerged = some cwM ∧
      lookupAssoc tx.txHash
          (tx.ExecuteTx height index cw
            engine).cw.contractCache.txRelAccounts = some keys ∧
      ∀ k, k ∈ keys ↔
        ((∃ a ∈ er.newAccounts, a.keyid = k) ∨
         (∃ s ∈ er.appUserIds, GetKeyId cwM.accountCache s = some k)) := by
  revert h
  simp only [CContractInvokeTx.ExecuteTx]
  repeat' split
  all_goals intro h
  all_goals
    first
      | (exfalso; simp at h; done)
      | (obtain ⟨cwM, vA, evs, hmerge, hrun, hcwm, hlookup⟩ :=
           invokePostEngine_success _ _ _ _ _ _ h
         exact ⟨_, cwM, _, hrun, hcwm, hlookup, fun k => by
           rw [resolveAppUserIds_mem _ _ _ k,
             mergeEngineAccounts_ok_mem _ _ _ _ _ _ hmerge k]
           simp only [List.not_mem_nil, or_false]
           exact or_comm⟩)

/-- Witness for C10: applying the theorem to the concrete happy-path run
(whose engine reports no accounts and no sub-accounts) yields the
persisted involved-address set and its characterization. -/
theorem invoke_executeTx_relaccounts_witness :
    ∃ er cwM keys,
      (invokeTxGood.ExecuteTx 10 0 cwHappy idEngine).engineRun = some er ∧
      (invokeTxGood.ExecuteTx 10 0 cwHappy idEngine).cwMerged = some cwM ∧
      lookupAssoc invokeTxGood.txHash
          (invokeTxGood.ExecuteTx 10 0 cwHappy
            idEngine).cw.contractCache.txRelAccounts = some keys ∧
      ∀ k, k ∈ keys ↔
        ((∃ a ∈ er.newAccounts, a.keyid = k) ∨
         (∃ s ∈ er.appUserIds, GetKeyId cwM.accountCache s = some k)) :=
  invoke_executeTx_relaccounts 10 0 cwHappy invokeTxGood idEngine (by decide)

end ContractTx
